import Mathlib

/-!
Formal model of the `vindriktning-esp8266` firmware (files `main.py`,
`pm1006.py`): the PM1006 frame decoder, the multi-stage signal-conditioning
pipeline (both the inline version in `main.py` and the `PM1006` class in
`pm1006.py`), the ring buffer of adjusted readings, and the connectivity /
publish / offline-logging sections of the outer loop.

Conventions of the shallow embedding:
* Python byte strings become `List ℕ` (each element a byte value 0..255).
* Python floats become `ℚ`; every arithmetic operation the pipeline performs
  (sums of 16-bit sensor values, halving, linear adjustment, exponential
  smoothing) is exact in IEEE double precision at the magnitudes involved, so
  rationals are a faithful model.
* `None` becomes `Option.none`; code that can raise a Python exception returns
  `Except PyErr _`, with `PyErr` naming the exception class raised.
* The module-level mutable state of `main.py` (`__pm1006_adjusted_ringbuf`,
  `__pm1006_adjusted_ringptr`, `__pm1006_last_adjusted`,
  `__pm1006_last_smoothed`) is passed explicitly as a `PMState`.
-/

/-- Python exception classes that the modelled code can raise. -/
inductive PyErr where
  | typeError
  | nameError
  | indexError
  | osError
  | exc
deriving DecidableEq

/-- Checked list indexing: `data[i]` in Python raises `IndexError` when out of
range. -/
def byteAt (data : List ℕ) (i : ℕ) : Except PyErr ℕ :=
  match data.get? i with
  | some b => Except.ok b
  | none => Except.error PyErr.indexError

/-- Frame-decoding scan of `__sniff_pm1006_uart` (`main.py` 72-89) and
`PM1006.read_raw` (`pm1006.py` 94-107): walk the buffer in strides of 20
bytes (`for offset in range(0,len(data),20)` together with the
`offset+20 > len(data)` partial-frame break is exactly recursion on
`data.drop 20` guarded by `data.length < 20`); check the three magic bytes
`22,17,11`, check that the 20-byte sum is 0 mod 256, and on success append
the big-endian value `data[offset+5]*256 + data[offset+6]`. -/
def read_raw_scan (data : List ℕ) : Except PyErr (List ℕ) :=
  if h : data.length < 20 then Except.ok []
  else
    match byteAt data 0, byteAt data 1, byteAt data 2 with
    | Except.ok b0, Except.ok b1, Except.ok b2 =>
      if b0 ≠ 22 ∨ b1 ≠ 17 ∨ b2 ≠ 11 then read_raw_scan (data.drop 20)
      else if (data.take 20).sum % 256 ≠ 0 then read_raw_scan (data.drop 20)
      else
        match byteAt data 5, byteAt data 6 with
        | Except.ok df3, Except.ok df4 =>
          match read_raw_scan (data.drop 20) with
          | Except.ok rest => Except.ok ((df3 * 256 + df4) :: rest)
          | Except.error e => Except.error e
        | Except.error e, _ => Except.error e
        | _, Except.error e => Except.error e
    | Except.error e, _, _ => Except.error e
    | _, Except.error e, _ => Except.error e
    | _, _, Except.error e => Except.error e
termination_by data.length
decreasing_by all_goals (simp [List.length_drop]; omega)

/-- Specification-side definition (for the refinement comparison of the
decoder): the full 20-byte strides of the buffer, a trailing remainder
shorter than 20 bytes discarded. -/
def specFullStrides (data : List ℕ) : List (List ℕ) :=
  if h : 20 ≤ data.length then data.take 20 :: specFullStrides (data.drop 20) else []
termination_by data.length
decreasing_by simp [List.length_drop]; omega

/-- Specification-side acceptance test for one stride: the first three bytes
are 0x16, 0x11, 0x0B and the 20-byte sum is 0 modulo 256. -/
def specStrideOK (f : List ℕ) : Bool :=
  f.getD 0 0 == 22 && f.getD 1 0 == 17 && f.getD 2 0 == 11 && f.sum % 256 == 0

/-- Specification-side value of an accepted stride: the big-endian 16-bit
integer from bytes 5 and 6. -/
def specStrideValue (f : List ℕ) : ℕ := f.getD 5 0 * 256 + f.getD 6 0

/-- Stage-1 selection shared verbatim by `main.py` 116-118 and `pm1006.py`
127-129: keep the last 6 values (`readings[-6:]`) and sort ascending. -/
def selectSorted (readings : List ℕ) : List ℕ :=
  List.insertionSort (· ≤ ·)
    (if readings.length > 6 then readings.drop (readings.length - 6) else readings)

/-- Volatility test of `main.py` 128 and `pm1006.py` 131 on the sorted batch:
`readings[-1] >= readings[0] + 100`. -/
def volatileChk (sel : List ℕ) : Bool :=
  decide (sel.getD 0 0 + 100 ≤ sel.getD (sel.length - 1) 0)

/-- Reduction cascade of `main.py` 134-147 (branch order as in the source). -/
def reduceMain (r : List ℕ) : Option ℚ :=
  if 6 ≤ r.length then some (((r.getD 2 0 : ℚ) + (r.getD 3 0 : ℚ)) / 2)
  else if r.length = 5 then some ((r.getD 2 0 : ℚ))
  else if r.length = 4 then some (((r.getD 1 0 : ℚ) + (r.getD 2 0 : ℚ)) / 2)
  else if r.length = 3 then some ((r.getD 1 0 : ℚ))
  else none

/-- Ring-buffer insertion of `main.py` 160-167, identical to the valid-reading
branch of `PM1006.read_adjusted` (`pm1006.py` 175-184): append while fewer
than 120 slots are used; once full, advance the index (first overwrite at
slot 0) modulo 120 and overwrite that slot. -/
def ringInsert {α : Type} (buf : List α) (ptr : Option ℕ) (v : α) : List α × Option ℕ :=
  if buf.length < 120 then (buf ++ [v], ptr)
  else
    match ptr with
    | none => (buf.set 0 v, some 0)
    | some q => (buf.set ((q + 1) % 120) v, some ((q + 1) % 120))

/-- Directional filter of `main.py` 169-173 (the swap formulation): given the
previous adjusted value and the current one, report the result and the new
`__pm1006_last_adjusted`. -/
def dirFilterMain (lastAdj : Option ℚ) (pm : ℚ) : ℚ × Option ℚ :=
  match lastAdj with
  | some la => if la < pm then (la, some pm) else (pm, some pm)
  | none => (pm, some pm)

/-- Smoothing of `main.py` 175-178: when both a previous smoothed value and a
smoothing coefficient exist, blend; the result always becomes the new
`__pm1006_last_smoothed`. -/
def smoothMain (smoothing : Option ℚ) (lastSm : Option ℚ) (pm : ℚ) : ℚ × Option ℚ :=
  match lastSm, smoothing with
  | some s, some a => (s * a + pm * (1 - a), some (s * a + pm * (1 - a)))
  | _, _ => (pm, some pm)

/-- The module-level pipeline state of `main.py` (lines 91-94). -/
structure PMState where
  ringbuf : List ℚ
  ringptr : Option ℕ
  lastAdjusted : Option ℚ
  lastSmoothed : Option ℚ
deriving DecidableEq

/-- The function `read_pm1006` of `main.py` 96-180.  Its input is the result
of `__sniff_pm1006_uart` (`none` when the UART read raised, otherwise the
decoded readings); adjustment applies `add` then `mul` then clamps at 0 as in
lines 150-155. -/
def read_pm1006 (smoothing add mul : Option ℚ) (readings? : Option (List ℕ))
    (st : PMState) : Option ℚ × PMState :=
  match readings? with
  | none => (none, ⟨st.ringbuf, st.ringptr, none, none⟩)
  | some readings =>
    if readings.length < 1 then (none, ⟨st.ringbuf, st.ringptr, none, none⟩)
    else
      let sel := selectSorted readings
      if volatileChk sel then (none, ⟨st.ringbuf, st.ringptr, none, none⟩)
      else
        match reduceMain sel with
        | none => (none, ⟨st.ringbuf, st.ringptr, none, none⟩)
        | some pm0 =>
          let pm1 := match add with | some a => pm0 + a | none => pm0
          let pm2 := match mul with | some m => pm1 * m | none => pm1
          let pm3 := if pm2 < 0 then 0 else pm2
          let rb := ringInsert st.ringbuf st.ringptr pm3
          let fl := dirFilterMain st.lastAdjusted pm3
          let sm := smoothMain smoothing st.lastSmoothed fl.1
          (some sm.1, ⟨rb.1, rb.2, fl.2, sm.2⟩)

/-- The method `PM1006.read_one` (`pm1006.py` 115-154): selection, volatility
guard, optional discarding of low readings below `_how_broken`, then the
reduction cascade in the source's branch order. -/
def read_one_pm1006 (howBroken : Option ℕ) (raw? : Option (List ℕ)) : Option ℚ :=
  match raw? with
  | none => none
  | some raw =>
    if raw.length < 1 then none
    else
      let sel := selectSorted raw
      if volatileChk sel then none
      else
        let sel2 := match howBroken with
                    | none => sel
                    | some hbv => sel.dropWhile (fun x => decide (x < hbv))
        if sel2.length < 3 then none
        else if sel2.length = 3 then some ((sel2.getD 1 0 : ℚ))
        else if sel2.length = 4 then some (((sel2.getD 1 0 : ℚ) + (sel2.getD 2 0 : ℚ)) / 2)
        else if sel2.length = 5 then some ((sel2.getD 2 0 : ℚ))
        else some (((sel2.getD 2 0 : ℚ) + (sel2.getD 3 0 : ℚ)) / 2)

/-- The method `PM1006.read_adjusted` (`pm1006.py` 161-200).  Adjustment is
multiply-then-add (lines 166-171); a valid reading goes into the ring buffer
exactly as `ringInsert`; an absent reading with a non-empty buffer pads the
buffer with the last-known-good value (lines 186-198) — note that the full
buffer case indexes `self._adjbuf[self._adjidx]` and raises `TypeError` when
`_adjidx` is still `None`. Returns (returned value, new buffer, new index). -/
def read_adjusted_pm1006 (mul add : Option ℚ) (one : Option ℚ) (buf : List ℚ)
    (idx : Option ℕ) : Except PyErr (Option ℚ × List ℚ × Option ℕ) :=
  match one with
  | some v0 =>
    let v1 := match mul with | some m => v0 * m | none => v0
    let v2 := match add with | some a => v1 + a | none => v1
    let v3 := if v2 < 0 then 0 else v2
    let rb := ringInsert buf idx v3
    Except.ok (some v3, rb.1, rb.2)
  | none =>
    if buf.length = 0 then Except.ok (none, buf, idx)
    else if buf.length < 120 then
      match buf.getLast? with
      | some oldval => Except.ok (none, buf ++ [oldval], idx)
      | none => Except.error PyErr.indexError
    else
      match idx with
      | none => Except.error PyErr.typeError
      | some q =>
        match buf.get? q with
        | none => Except.error PyErr.indexError
        | some oldval =>
          Except.ok (none, buf.set ((q + 1) % 120) oldval, some ((q + 1) % 120))

/-- One step of `PM1006.read_filtered` (`pm1006.py` 206-214) given the
previous `_old_adjusted` and the value returned by `read_adjusted`: the pair
is (returned value, new `_old_adjusted`).  The unfiltered current value is
always stored (line 209); the minimum is only returned. -/
def read_filtered_step (oldAdjusted adjusted : Option ℚ) : Option ℚ × Option ℚ :=
  match adjusted, oldAdjusted with
  | some a, some o => (some (min o a), some a)
  | _, _ => (adjusted, adjusted)

/-- One step of `PM1006.read_smoothed` (`pm1006.py` 220-226): the blend is
attempted and any `TypeError` (raised when `_old_smoothed`, `_exp_smooth` or
the filtered value is `None`) falls back to the filtered value; the result is
stored in `_old_smoothed` and returned. -/
def read_smoothed_step (expSmooth oldSm filtered : Option ℚ) : Option ℚ :=
  match oldSm, expSmooth, filtered with
  | some s, some a, some f => some (s * a + f * (1 - a))
  | _, _, _ => filtered

/-- The network-facing state of the outer loop of `main.py`: whether
`wlan.isconnected()` holds and whether `mqtt.sock` is set. -/
structure NetState where
  linkUp : Bool
  sock : Option Unit
deriving DecidableEq

/-- The per-iteration inputs of one pass through the outer loop of `main.py`
(lines 186-276): configuration values, the result of the UART sniff, and the
outcome (`none` = returned normally, `some e` = raised `e`) of each external
operation the iteration may invoke. -/
structure LoopExt where
  readings : Option (List ℕ)
  smoothing : Option ℚ
  add : Option ℚ
  mul : Option ℚ
  topic : Option Unit
  wifiErr : Option PyErr
  linkAfterWifiErr : Bool
  brokerErr : Option PyErr
  wlanDiscErr : Option PyErr
  publishErr : Option PyErr
  pingErr : Option PyErr
  mqttDiscErr : Option PyErr
  hourNow : ℕ
  openErr : Option PyErr
  writeErr : Option PyErr
deriving DecidableEq

/-- The full mutable state one loop iteration reads and writes. -/
structure LoopState where
  pm : PMState
  net : NetState
  offlinePub : Bool
  offlineH : ℕ
deriving DecidableEq

/-- The wifi CONNECT section (`main.py` 197-219) at the granularity claim C1
needs: its entire body sits in one `try`, the inner retry loop exits only
once `wlan.isconnected()` holds, and a raised exception is caught and logged
(`except Exception`), leaving the link in whatever state the interface then
reports.  The detailed retry/backoff behaviour of the body is modelled
separately by `wifiLoop`. -/
def wifiStep (E : LoopExt) (st : NetState) : NetState :=
  if st.linkUp then st
  else match E.wifiErr with
    | none => { st with linkUp := true }
    | some _ => { st with linkUp := E.linkAfterWifiErr }

/-- The broker CONNECT section (`main.py` 221-234): only attempted when the
link is up and `mqtt.sock is None`; on `mqtt.connect()` raising, `mqtt.sock`
is set to `None` and `wlan.disconnect()` is attempted (its own exception
swallowed by `except: pass`). -/
def brokerStep (E : LoopExt) (st : NetState) : NetState :=
  if st.linkUp = false then st
  else match st.sock with
    | some _ => st
    | none =>
      match E.brokerErr with
      | none => { st with sock := some () }
      | some _ =>
        { linkUp := match E.wlanDiscErr with
                    | none => false
                    | some _ => st.linkUp,
          sock := none }

/-- The PUBLISH section (`main.py` 236-254): guarded by link up, session up
and a configured topic; publishes when a reading exists, otherwise pings; on
either raising, `mqtt.disconnect(); mqtt.sock = None` runs under
`except: pass`, so `mqtt.sock` stays set when `mqtt.disconnect()` itself
raises (the assignment after it is skipped). -/
def publishStep (E : LoopExt) (pmvt : Option ℚ) (st : NetState) : NetState :=
  if st.linkUp && st.sock.isSome && E.topic.isSome then
    match pmvt with
    | some _ =>
      (match E.publishErr with
       | none => st
       | some _ =>
         match E.mqttDiscErr with
         | none => { st with sock := none }
         | some _ => st)
    | none =>
      (match E.pingErr with
       | none => st
       | some _ =>
         match E.mqttDiscErr with
         | none => { st with sock := none }
         | some _ => st)
  else st

/-- Whether the PUBLISH section completed a publish or ping without an
exception this iteration. -/
def publishSucceeded (E : LoopExt) (pmvt : Option ℚ) (st : NetState) : Bool :=
  st.linkUp && st.sock.isSome && E.topic.isSome &&
    (match pmvt with
     | some _ => E.publishErr.isNone
     | none => E.pingErr.isNone)

/-- Observer state for the temporal connectivity claim: the specification
attributes a `last_success_timestamp` to the connectivity manager.  The
source maintains no such variable, so it is carried here alongside the code's
`NetState` purely as an observer, refreshed exactly when a publish or ping
succeeds. -/
structure ConnState where
  net : NetState
  lastSuccess : ℕ
deriving DecidableEq

/-- One advance of the PUBLISH section together with the observer timestamp:
the code's transition is `publishStep` (which never consults `now`), and the
observer records `now` on a successful publish or ping. -/
def advancePublish (now : ℕ) (E : LoopExt) (pmvt : Option ℚ) (c : ConnState) : ConnState :=
  { net := publishStep E pmvt c.net,
    lastSuccess := if publishSucceeded E pmvt c.net then now else c.lastSuccess }

/-- The offline-publishing section (`main.py` 256-266), entered when the link
is down and offline publishing is active.  Inside the `try`: on an hour
rollover a new log file is opened; the line `offline_log.write('...%.2f' %
(..., pmvt))` first formats `pmvt`, raising `TypeError` when it is `None`;
then the write itself may raise.  The bare `except:` handler evaluates
`type(e).__name__` with `e` unbound (a bare `except` binds nothing, and a
CPython/MicroPython `except ... as e` erases its binding when its block
exits), so the handler itself raises `NameError`, which nothing above
catches.  Returns the new `offline_h` on success. -/
def offlineStep (E : LoopExt) (pmvt : Option ℚ) (net : NetState) (offlinePub : Bool)
    (offlineH : ℕ) : Except PyErr ℕ :=
  if net.linkUp = false ∧ offlinePub = true then
    let body : Except PyErr ℕ :=
      match (if offlineH ≠ E.hourNow then E.openErr else none) with
      | some e => Except.error e
      | none =>
        match pmvt with
        | none => Except.error PyErr.typeError
        | some _ =>
          match E.writeErr with
          | some e => Except.error e
          | none => Except.ok (if offlineH ≠ E.hourNow then E.hourNow else offlineH)
    match body with
    | Except.ok h => Except.ok h
    | Except.error _ => Except.error PyErr.nameError
  else Except.ok offlineH

/-- The reading produced by the READ section of one iteration. -/
def loopPmvt (E : LoopExt) (st : LoopState) : Option ℚ :=
  (read_pm1006 E.smoothing E.add E.mul E.readings st.pm).1

/-- The network state after the CONNECT and PUBLISH sections of one
iteration. -/
def loopNet (E : LoopExt) (st : LoopState) : NetState :=
  publishStep E (loopPmvt E st) (brokerStep E (wifiStep E st.net))

/-- One full iteration of the outer `while True:` loop of `main.py` 186-276:
READ, CONNECT (wifi then broker), PUBLISH, offline publishing, LED section
(pure logging).  There is no `try` around this body, so an exception that
escapes a section terminates the process. -/
def loopBody (E : LoopExt) (st : LoopState) : Except PyErr LoopState :=
  match offlineStep E (loopPmvt E st) (loopNet E st) st.offlinePub st.offlineH with
  | Except.ok h =>
    Except.ok ⟨(read_pm1006 E.smoothing E.add E.mul E.readings st.pm).2,
               loopNet E st, st.offlinePub, h⟩
  | Except.error e => Except.error e

/-- Retry-budget update of the wifi connect loop (`main.py` 212):
`s = (s % 5) + 1`. -/
def sNext (s : ℕ) : ℕ := s % 5 + 1

/-- The inner polling loop `for i in range(0, s)` (`main.py` 205-209): sleep
one second, then test `wlan.isconnected()`; `conn t` is what the interface
reports `t` seconds after the CONNECT section began.  Returns whether the
link came up and the elapsed time when the loop stopped. -/
def pollFor (conn : ℕ → Bool) : ℕ → ℕ → Bool × ℕ
  | t, 0 => (false, t)
  | t, k + 1 =>
    if conn (t + 1) then (true, t + 1) else pollFor conn (t + 1) k

/-- The wifi connect retry loop (`main.py` 199-214), run with `fuel` retry
cycles at most (the source loops until connected).  Each cycle records its
budget `s`, the number of 1-second polls it used, and whether it issued
`wlan.connect` (which the source does exactly when `s == 1`); on success the
fixed `time.sleep(5)` settle delay follows, so the returned finish time is
the connect time plus 5. -/
def wifiLoop (conn : ℕ → Bool) : ℕ → ℕ → ℕ → Option (List (ℕ × ℕ × Bool) × ℕ)
  | 0, _, _ => none
  | fuel + 1, t, s =>
    let p := pollFor conn t s
    if p.1 then some ([(s, p.2 - t, s == 1)], p.2 + 5)
    else
      match wifiLoop conn fuel p.2 (sNext s) with
      | none => none
      | some (rest, tf) => some ((s, p.2 - t, s == 1) :: rest, tf)

/-- A `LoopExt` in which every external operation succeeds, the UART sniff
itself raised (so the reading is absent), and a topic is configured. -/
def extNoErrTopic : LoopExt :=
  { readings := none, smoothing := none, add := none, mul := none,
    topic := some (), wifiErr := none, linkAfterWifiErr := false,
    brokerErr := none, wlanDiscErr := none, publishErr := none,
    pingErr := none, mqttDiscErr := none, hourNow := 0,
    openErr := none, writeErr := none }

/-- The ring buffer and index after inserting the 130 values 1..130 into an
initially empty buffer. -/
def c3run : List ℕ × Option ℕ :=
  (List.range' 1 130).foldl (fun st v => ringInsert st.1 st.2 v) ([], none)

/-- Whether an `Except` computation returned normally (did not raise). -/
def exceptOk {β : Type} : Except PyErr β → Bool
  | Except.ok _ => true
  | Except.error _ => false

/-- Iteration inputs reaching the offline-logging path with an absent reading:
the UART sniff decoded no valid frame (`readings = some []`), the wifi
connect attempt raised (caught locally) and the link stayed down. -/
def extC1 : LoopExt :=
  { extNoErrTopic with readings := some [], wifiErr := some PyErr.exc }

/-- Loop state with the link down and offline publishing active. -/
def stC1 : LoopState := ⟨⟨[], none, none, none⟩, ⟨false, none⟩, true, 0⟩

/-- Iteration inputs in which the wifi connect, broker connect, publish and
ping operations all raise, while offline publishing is inactive. -/
def extC1W : LoopExt :=
  { extNoErrTopic with
    readings := some [22]
    wifiErr := some PyErr.exc
    brokerErr := some PyErr.exc
    publishErr := some PyErr.exc
    pingErr := some PyErr.exc }

/-- Loop state with the link down and offline publishing inactive. -/
def stC1W : LoopState := ⟨⟨[], none, none, none⟩, ⟨false, none⟩, false, 0⟩

/-- Claim C5: the reduction stage maps a retained sorted batch of 3 values to
the middle value, 4 values to the mean of the two middle ones, 5 values to
index 2, 6 values to the mean of indices 2 and 3, and fewer than 3 values to
absent; sorted [10,20,30] yields 20.0 and sorted [10,20,30,40] yields 25.0
(both in `main.py` `read_pm1006` and in `PM1006.read_one`). -/
theorem c5_reduction :
    (∀ a b c : ℕ, reduceMain [a, b, c] = some ((b : ℚ))) ∧
    (∀ a b c d : ℕ, reduceMain [a, b, c, d] = some (((b : ℚ) + (c : ℚ)) / 2)) ∧
    (∀ a b c d e : ℕ, reduceMain [a, b, c, d, e] = some ((c : ℚ))) ∧
    (∀ a b c d e f : ℕ, reduceMain [a, b, c, d, e, f] = some (((c : ℚ) + (d : ℚ)) / 2)) ∧
    reduceMain [] = none ∧
    (∀ a : ℕ, reduceMain [a] = none) ∧
    (∀ a b : ℕ, reduceMain [a, b] = none) ∧
    reduceMain [10, 20, 30] = some 20 ∧
    reduceMain [10, 20, 30, 40] = some 25 ∧
    read_one_pm1006 none (some [10, 20, 30]) = some 20 ∧
    read_one_pm1006 none (some [10, 20, 30, 40]) = some 25 := by
  refine ⟨?_, ?_, ?_, ?_, ?_, ?_, ?_, ?_, ?_, ?_, ?_⟩
  · intro a b c; simp [reduceMain]
  · intro a b c d; simp [reduceMain]
  · intro a b c d e; simp [reduceMain]
  · intro a b c d e f; simp [reduceMain]
  · simp [reduceMain]
  · intro a; simp [reduceMain]
  · intro a b; simp [reduceMain]
  · norm_num [reduceMain]
  · norm_num [reduceMain]
  · norm_num [read_one_pm1006, selectSorted, volatileChk, List.insertionSort, List.orderedInsert]
  · norm_num [read_one_pm1006, selectSorted, volatileChk, List.insertionSort, List.orderedInsert]

/-- Claim C7: with a previous adjusted value `p` and current adjusted value
`c`, the directional filter reports `p` when `c > p` and otherwise `c` (the
lower of the two), while the unfiltered current value `c` becomes the stored
last-adjusted state; the swap formulation of `main.py` 169-173 and the min
formulation of `PM1006.read_filtered` agree on both the output and the new
state. -/
theorem c7_directional_filter (p c : ℚ) :
    dirFilterMain (some p) c = (if p < c then p else c, some c) ∧
    read_filtered_step (some p) (some c) = (some (if p < c then p else c), some c) ∧
    (if p < c then p else c) = min p c := by
  have hm : min p c = if p < c then p else c := by
    rcases lt_or_le p c with h | h
    · simp [h, min_eq_left h.le]
    · simp [not_lt.mpr h, min_eq_right h]
  by_cases h : p < c <;> simp [dirFilterMain, read_filtered_step, h, hm]

/-- Claim C8: for a configured smoothing coefficient α ∈ [0,1), previous
smoothed value s and current filtered value f, the smoothing stage outputs
s*α + f*(1−α) and stores it as the new smoothed state; without a previous
smoothed value or with α unset it passes f through; s=10, f=20, α=1/2 gives
15 and α unset gives 20 (both `main.py` 175-178 and
`PM1006.read_smoothed`). -/
theorem c8_smoothing (a s f : ℚ) (h0 : 0 ≤ a) (h1 : a < 1) :
    smoothMain (some a) (some s) f = (s * a + f * (1 - a), some (s * a + f * (1 - a))) ∧
    smoothMain none (some s) f = (f, some f) ∧
    smoothMain (some a) none f = (f, some f) ∧
    read_smoothed_step (some a) (some s) (some f) = some (s * a + f * (1 - a)) ∧
    read_smoothed_step none (some s) (some f) = some f ∧
    read_smoothed_step (some a) none (some f) = some f ∧
    smoothMain (some (1/2)) (some 10) 20 = (15, some 15) ∧
    smoothMain none (some 10) 20 = (20, some 20) := by
  refine ⟨rfl, rfl, rfl, rfl, rfl, rfl, ?_, rfl⟩
  norm_num [smoothMain]

/-- Witness for C8 at α = 1/2, s = 10, f = 20. -/
theorem c8_smoothing_witness :
    (0 : ℚ) ≤ 1/2 ∧ (1/2 : ℚ) < 1 ∧
    smoothMain (some (1/2)) (some 10) 20
      = (10 * (1/2) + 20 * (1 - 1/2), some (10 * (1/2) + 20 * (1 - 1/2))) :=
  ⟨by norm_num, by norm_num, (c8_smoothing (1/2) 10 20 (by norm_num) (by norm_num)).1⟩

/-- Claim C10: in `PM1006.read_adjusted`, an absent cycle with a non-empty
ring buffer still inserts a value — the most recently stored adjusted value
is duplicated into the next slot (appending while below capacity, advancing
the wrap index when full) while the cycle still returns absent; an empty
buffer is left unchanged.  The final conjunct evaluates the code at the one
reachable state where this fails: a buffer filled to exactly 120 entries by
appends (wrap index still `None`) followed by an absent cycle raises
`TypeError` (`self._adjbuf[self._adjidx]` with `_adjidx = None`) instead of
padding the buffer. -/
theorem c10_absent_ring_padding :
    (∀ (mul add : Option ℚ) (buf : List ℚ) (idx : Option ℕ),
       buf = [] → read_adjusted_pm1006 mul add none buf idx = Except.ok (none, buf, idx)) ∧
    (∀ (mul add : Option ℚ) (buf : List ℚ) (idx : Option ℕ) (x : ℚ),
       buf.getLast? = some x → buf.length < 120 →
       read_adjusted_pm1006 mul add none buf idx = Except.ok (none, buf ++ [x], idx)) ∧
    (∀ (mul add : Option ℚ) (buf : List ℚ) (q : ℕ) (x : ℚ),
       buf.length = 120 → buf.get? q = some x →
       read_adjusted_pm1006 mul add none buf (some q)
         = Except.ok (none, buf.set ((q + 1) % 120) x, some ((q + 1) % 120))) ∧
    read_adjusted_pm1006 none none none (List.replicate 120 (5 : ℚ)) none
      = Except.error PyErr.typeError := by
  refine ⟨?_, ?_, ?_, ?_⟩
  · rintro mul add buf idx rfl
    simp [read_adjusted_pm1006]
  · intro mul add buf idx x hlast hlen
    have hne : buf ≠ [] := by rintro rfl; simp at hlast
    have h0 : ¬ buf.length = 0 := by simpa [List.length_eq_zero] using hne
    simp [read_adjusted_pm1006, h0, hlen, hlast]
  · intro mul add buf q x hlen hget
    have hget2 : buf[q]? = some x := by simpa [List.get?_eq_getElem?] using hget
    simp [read_adjusted_pm1006, hlen, hget2]
  · rfl

/-- Witness for C10 on a 3-element buffer: the last-known-good value 3 is
appended and the cycle still returns absent. -/
theorem c10_absent_ring_padding_witness :
    ([(1 : ℚ), 2, 3].getLast? = some 3 ∧ ([(1 : ℚ), 2, 3]).length < 120) ∧
    read_adjusted_pm1006 none none none [(1 : ℚ), 2, 3] none
      = Except.ok (none, [(1 : ℚ), 2, 3] ++ [3], none) :=
  ⟨⟨rfl, by norm_num⟩,
   c10_absent_ring_padding.2.1 none none [(1 : ℚ), 2, 3] none 3 rfl (by norm_num)⟩

set_option maxRecDepth 8000 in
/-- Counterexample to claim C3: after inserting the 130 sequential values
1..130 into an initially empty ring buffer, slot 0 holds the 121st inserted
value (the first overwrite lands on slot 0), not the 11th inserted value as
claimed. -/
theorem c3_counterexample : c3run.1.headD 0 = 121 ∧ c3run.1.headD 0 ≠ 11 := by
  constructor
  · rfl
  · intro h
    rw [show c3run.1.headD 0 = 121 from rfl] at h
    omega

set_option maxRecDepth 8000 in
/-- Claim C3 as amended: once full, an insertion overwrites the slot at the
index advanced modulo 120; after inserting 130 sequential values into an
initially empty buffer the buffer holds exactly the last 120 inserted values
(values 11..130 as a permutation), but slot 0 holds the 121st inserted value
— the 11th inserted value, the oldest retained one, sits at slot 10. -/
theorem c3_ring_wrap :
    (∀ (buf : List ℕ) (q v : ℕ), buf.length = 120 →
       ringInsert buf (some q) v = (buf.set ((q + 1) % 120) v, some ((q + 1) % 120))) ∧
    c3run.1 = List.range' 121 10 ++ List.range' 11 110 ∧
    c3run.1.length = 120 ∧
    c3run.1.Perm (List.range' 11 120) ∧
    c3run.1.headD 0 = 121 ∧
    c3run.1.getD 10 0 = 11 := by
  refine ⟨?_, rfl, rfl, ?_, rfl, rfl⟩
  · intro buf q v hlen
    simp [ringInsert, hlen]
  · rw [show c3run.1 = List.range' 121 10 ++ List.range' 11 110 from rfl]
    have hsplit : List.range' 11 120 = List.range' 11 110 ++ List.range' 121 10 := by
      rw [← List.range'_append 11 110 10 1]
    rw [hsplit]
    exact List.perm_append_comm

/-- Witness for the amended C3 wrap rule on a concrete full buffer. -/
theorem c3_ring_wrap_witness :
    (List.replicate 120 (0 : ℕ)).length = 120 ∧
    ringInsert (List.replicate 120 (0 : ℕ)) (some 119) 5
      = ((List.replicate 120 (0 : ℕ)).set ((119 + 1) % 120) 5, some ((119 + 1) % 120)) :=
  ⟨by simp, c3_ring_wrap.1 (List.replicate 120 0) 119 5 (by simp)⟩

/-- Claim C6: when the sorted retained batch has maximum at least 100 above
its minimum, the cycle is rejected: `read_pm1006` returns absent and resets
the directional-filter and smoothing state (`__pm1006_last_adjusted` and
`__pm1006_last_smoothed`) to none, leaving the ring buffer untouched, so the
next valid cycle's directional filter has no previous value; `PM1006.read_one`
likewise returns absent for such a batch. -/
theorem c6_volatility_guard (smoothing add mul : Option ℚ) (hb : Option ℕ)
    (readings : List ℕ) (st : PMState)
    (hne : 1 ≤ readings.length)
    (hvol : volatileChk (selectSorted readings) = true) :
    read_pm1006 smoothing add mul (some readings) st
      = (none, ⟨st.ringbuf, st.ringptr, none, none⟩) ∧
    read_one_pm1006 hb (some readings) = none := by
  have hlt : ¬ readings.length < 1 := by omega
  constructor
  · simp [read_pm1006, hlt, hvol]
  · simp [read_one_pm1006, hlt, hvol]

/-- Witness for C6 on the sorted batch [0,10,20,30,40,150] (range 150 ≥ 100)
with arbitrary non-trivial pipeline state. -/
theorem c6_volatility_guard_witness :
    1 ≤ ([0, 10, 20, 30, 40, 150] : List ℕ).length ∧
    volatileChk (selectSorted [0, 10, 20, 30, 40, 150]) = true ∧
    (read_pm1006 (some (1/2)) (some 1) (some 2) (some [0, 10, 20, 30, 40, 150])
        ⟨[3], some 0, some 2, some 7⟩
      = (none, ⟨[3], some 0, none, none⟩) ∧
     read_one_pm1006 none (some [0, 10, 20, 30, 40, 150]) = none) :=
  ⟨by norm_num, by decide,
   c6_volatility_guard (some (1/2)) (some 1) (some 2) none [0, 10, 20, 30, 40, 150]
     ⟨[3], some 0, some 2, some 7⟩ (by norm_num) (by decide)⟩

/-- Counterexample to claim C2: with the link up, a session established, and
150 seconds elapsed since the last successful publish (well beyond the
claimed ~100s threshold), an advance in which no operation raises leaves the
session up and the link up — the code performs no staleness-driven drop (it
keeps no last-success timestamp at all; `main.py` 236-254 reacts only to
exceptions). -/
theorem c2_counterexample :
    150 - (⟨⟨true, some ()⟩, 0⟩ : ConnState).lastSuccess > 100 ∧
    publishSucceeded extNoErrTopic (some 7) (⟨⟨true, some ()⟩, 0⟩ : ConnState).net = true ∧
    (advancePublish 150 extNoErrTopic (some 7) ⟨⟨true, some ()⟩, 0⟩).net.sock = some () ∧
    (advancePublish 150 extNoErrTopic (some 7) ⟨⟨true, some ()⟩, 0⟩).net.linkUp = true := by
  refine ⟨by norm_num, rfl, rfl, rfl⟩

/-- Claim C2 as amended: the connectivity code keeps no last-success
timestamp and never drops the session or the link because of elapsed time;
its transition is independent of the clock.  While the link is up and the
session is established, a successful publish (reading present) or ping
(reading absent) leaves session and link up; the session goes down — with
the link kept up — exactly when the publish or ping raises (and the
follow-up `mqtt.disconnect()` does not itself raise). -/
theorem c2_session_drop_only_on_error (now : ℕ) (E : LoopExt) (pmvt : Option ℚ)
    (c : ConnState)
    (hl : c.net.linkUp = true) (hs : c.net.sock = some ()) (ht : E.topic = some ()) :
    (∀ now2 : ℕ, (advancePublish now E pmvt c).net = (advancePublish now2 E pmvt c).net) ∧
    (∀ v : ℚ, pmvt = some v → E.publishErr = none →
       advancePublish now E pmvt c = ⟨⟨true, some ()⟩, now⟩) ∧
    (pmvt = none → E.pingErr = none →
       advancePublish now E pmvt c = ⟨⟨true, some ()⟩, now⟩) ∧
    (∀ (v : ℚ) (err : PyErr), pmvt = some v → E.publishErr = some err →
       E.mqttDiscErr = none →
       advancePublish now E pmvt c = ⟨⟨true, none⟩, c.lastSuccess⟩) ∧
    (∀ err : PyErr, pmvt = none → E.pingErr = some err → E.mqttDiscErr = none →
       advancePublish now E pmvt c = ⟨⟨true, none⟩, c.lastSuccess⟩) := by
  obtain ⟨⟨lu, so⟩, ls⟩ := c
  replace hl : lu = true := hl
  replace hs : so = some () := hs
  subst hl
  subst hs
  refine ⟨fun now2 => rfl, ?_, ?_, ?_, ?_⟩
  · rintro v rfl hpe
    simp [advancePublish, publishStep, publishSucceeded, ht, hpe]
  · rintro rfl hpe
    simp [advancePublish, publishStep, publishSucceeded, ht, hpe]
  · rintro v err rfl hpe hd
    simp [advancePublish, publishStep, publishSucceeded, ht, hpe, hd]
  · rintro err rfl hpe hd
    simp [advancePublish, publishStep, publishSucceeded, ht, hpe, hd]

/-- Witness for the amended C2: a successful publish at time 150 leaves the
session and link up and refreshes only the observer timestamp. -/
theorem c2_session_drop_only_on_error_witness :
    (⟨⟨true, some ()⟩, 0⟩ : ConnState).net.linkUp = true ∧
    (⟨⟨true, some ()⟩, 0⟩ : ConnState).net.sock = some () ∧
    extNoErrTopic.topic = some () ∧
    advancePublish 150 extNoErrTopic (some 7) ⟨⟨true, some ()⟩, 0⟩
      = ⟨⟨true, some ()⟩, 150⟩ :=
  ⟨rfl, rfl, rfl,
   (c2_session_drop_only_on_error 150 extNoErrTopic (some 7) ⟨⟨true, some ()⟩, 0⟩
      rfl rfl rfl).2.1 7 rfl rfl⟩

/-- Counterexample to claim C1: one loop iteration in which the link is down,
offline publishing is active, and the UART sniff decoded no valid frame (the
reading is absent) raises an exception that no handler in the loop catches:
formatting the absent reading raises `TypeError` inside the offline `try:`,
and the bare `except:` handler itself raises `NameError` on the unbound name
`e`; the iteration ends with an uncaught exception instead of being caught
at an outermost loop boundary — `main.py` has no such boundary, so the
process terminates. -/
theorem c1_counterexample : loopBody extC1 stC1 = Except.error PyErr.nameError := by
  rfl

/-- Claim C1 as amended: exceptions raised by the wireless-connect,
broker-connect, publish and ping operations are each caught by that
section's local handler, so any iteration whose offline-logging section does
not raise completes normally whatever those operations do; there is no
outermost catch-all, and an exception escaping the offline section's handler
(NameError from its unbound exception variable) terminates the process. -/
theorem c1_no_unhandled_network_error (E : LoopExt) (st : LoopState)
    (hoff : exceptOk (offlineStep E (loopPmvt E st) (loopNet E st)
              st.offlinePub st.offlineH) = true) :
    exceptOk (loopBody E st) = true := by
  unfold loopBody
  cases hcase : offlineStep E (loopPmvt E st) (loopNet E st) st.offlinePub st.offlineH with
  | ok h => simp [exceptOk]
  | error e => rw [hcase] at hoff; simp [exceptOk] at hoff

/-- Witness for the amended C1: an iteration in which wifi connect, broker
connect, publish and ping all raise (offline publishing inactive) still
completes normally. -/
theorem c1_no_unhandled_network_error_witness :
    exceptOk (offlineStep extC1W (loopPmvt extC1W stC1W) (loopNet extC1W stC1W)
        stC1W.offlinePub stC1W.offlineH) = true ∧
    exceptOk (loopBody extC1W stC1W) = true :=
  ⟨rfl, c1_no_unhandled_network_error extC1W stC1W rfl⟩

/-- In-range indexing never raises. -/
theorem byteAt_of_lt (data : List ℕ) (i : ℕ) (h : i < data.length) :
    byteAt data i = Except.ok (data.getD i 0) := by
  unfold byteAt
  cases hq : data.get? i with
  | none =>
    rw [List.get?_eq_none] at hq
    omega
  | some b =>
    have hq2 : data[i]? = some b := by rw [← List.get?_eq_getElem?]; exact hq
    have hb : data.getD i 0 = b := by simp [List.getD_eq_getElem?_getD, hq2]
    rw [hb]

/-- Indexing below the prefix length passes through `take`. -/
theorem getD_take_of_lt : ∀ (l : List ℕ) (n i : ℕ), i < n → (l.take n).getD i 0 = l.getD i 0 := by
  intro l
  induction l with
  | nil => intro n i h; simp
  | cons a t ih =>
    intro n i h
    cases n with
    | zero => omega
    | succ n =>
      cases i with
      | zero => simp
      | succ i => simpa using ih n i (by omega)

/-- A buffer shorter than one frame decodes to nothing. -/
theorem read_raw_scan_short (data : List ℕ) (h : data.length < 20) :
    read_raw_scan data = Except.ok [] := by
  rw [read_raw_scan.eq_def, dif_pos h]

/-- A buffer shorter than one frame has no full stride. -/
theorem specFullStrides_short (data : List ℕ) (h : data.length < 20) :
    specFullStrides data = [] := by
  rw [specFullStrides.eq_def, dif_neg (by omega)]

/-- A buffer holding at least one frame splits into its first stride and the
strides of the rest. -/
theorem specFullStrides_long (data : List ℕ) (h : 20 ≤ data.length) :
    specFullStrides data = data.take 20 :: specFullStrides (data.drop 20) := by
  rw [specFullStrides.eq_def, dif_pos h]

/-- The decoder loop equals the specification-side filter-and-map over full
strides, and in particular never raises. -/
theorem read_raw_scan_eq_spec : ∀ (n : ℕ) (data : List ℕ), data.length ≤ n →
    read_raw_scan data
      = Except.ok (((specFullStrides data).filter specStrideOK).map specStrideValue) := by
  intro n
  induction n with
  | zero =>
    intro data hle
    rw [read_raw_scan_short data (by omega), specFullStrides_short data (by omega)]
    simp
  | succ n ih =>
    intro data hle
    by_cases h20 : data.length < 20
    · rw [read_raw_scan_short data h20, specFullStrides_short data h20]
      simp
    · push_neg at h20
      have hdrop : (data.drop 20).length ≤ n := by
        simp only [List.length_drop]
        omega
      have hrec := ih (data.drop 20) hdrop
      have e0 := getD_take_of_lt data 20 0 (by omega)
      have e1 := getD_take_of_lt data 20 1 (by omega)
      have e2 := getD_take_of_lt data 20 2 (by omega)
      have e5 := getD_take_of_lt data 20 5 (by omega)
      have e6 := getD_take_of_lt data 20 6 (by omega)
      rw [read_raw_scan.eq_def, dif_neg (by omega)]
      rw [byteAt_of_lt data 0 (by omega), byteAt_of_lt data 1 (by omega),
          byteAt_of_lt data 2 (by omega), byteAt_of_lt data 5 (by omega),
          byteAt_of_lt data 6 (by omega)]
      rw [specFullStrides_long data h20]
      by_cases hc1 : data.getD 0 0 = 22 <;> by_cases hc2 : data.getD 1 0 = 17 <;>
        by_cases hc3 : data.getD 2 0 = 11 <;>
        by_cases hcs : (data.take 20).sum % 256 = 0 <;>
        simp [hc1, hc2, hc3, hcs, hrec, specStrideOK, specStrideValue,
              e0, e1, e2, e5, e6, List.filter_cons, -List.getD_eq_getElem?_getD]

/-- Claim C4: the frame decoder scans in fixed 20-byte strides from offset 0,
discards a trailing remainder shorter than 20 bytes, skips exactly the
strides whose magic bytes are not 0x16,0x11,0x0B or whose 20-byte sum is not
0 mod 256 while continuing at the next stride, appends one big-endian value
from bytes 5 and 6 per accepted stride in stride order, and never raises on
malformed input (the `Except` result is always `ok`). -/
theorem c4_decoder (data : List ℕ) :
    read_raw_scan data
      = Except.ok (((specFullStrides data).filter specStrideOK).map specStrideValue) :=
  read_raw_scan_eq_spec data.length data le_rfl

/-- The polling loop advances time by at most its budget and never goes
backwards. -/
theorem pollFor_bounds (conn : ℕ → Bool) :
    ∀ (k t : ℕ), t ≤ (pollFor conn t k).2 ∧ (pollFor conn t k).2 ≤ t + k := by
  intro k
  induction k with
  | zero => intro t; simp [pollFor]
  | succ k ih =>
    intro t
    simp only [pollFor]
    by_cases hc : conn (t + 1) = true
    · simp [hc]
    · simp only [hc, if_false, Bool.false_eq_true]
      have h2 := ih (t + 1)
      constructor <;> omega


/-- Structural description of a terminating run of the wifi retry loop
started with budget `s` ∈ [1,5]: every cycle's entry records its budget, a
poll count bounded by the budget, and a connect request exactly when the
budget is 1; consecutive budgets follow `sNext`; the finish time is the
start time plus all 1-second polls plus the 5-second settle delay. -/
theorem wifiLoop_spec (conn : ℕ → Bool) :
    ∀ (fuel t s : ℕ) (entries : List (ℕ × ℕ × Bool)) (tf : ℕ),
      1 ≤ s → s ≤ 5 →
      wifiLoop conn fuel t s = some (entries, tf) →
      entries ≠ [] ∧
      (entries.headD (0, 0, false)).1 = s ∧
      (∀ e ∈ entries, 1 ≤ e.1 ∧ e.1 ≤ 5 ∧ e.2.1 ≤ e.1 ∧ e.2.2 = (e.1 == 1)) ∧
      List.Chain' (fun a b => b.1 = sNext a.1) entries ∧
      tf = t + (entries.map (fun e => e.2.1)).sum + 5 := by
  intro fuel
  induction fuel with
  | zero =>
    intro t s entries tf h1 h5 heq
    simp [wifiLoop] at heq
  | succ fuel ih =>
    intro t s entries tf h1 h5 heq
    simp only [wifiLoop] at heq
    obtain ⟨hpb1, hpb2⟩ := pollFor_bounds conn s t
    by_cases hp : (pollFor conn t s).1 = true
    · rw [if_pos hp] at heq
      have heq2 := Option.some.inj heq
      injection heq2 with hent htf
      subst hent
      subst htf
      refine ⟨by simp, by simp, ?_, by simp, ?_⟩
      · intro e he
        have he2 : e = (s, (pollFor conn t s).2 - t, s == 1) := by simpa using he
        subst he2
        refine ⟨h1, h5, ?_, rfl⟩
        dsimp only
        omega
      · simp only [List.map_cons, List.map_nil, List.sum_cons, List.sum_nil]
        omega
    · rw [if_neg hp] at heq
      cases hrec : wifiLoop conn fuel (pollFor conn t s).2 (sNext s) with
      | none => rw [hrec] at heq; simp at heq
      | some pr =>
        obtain ⟨rest, tf2⟩ := pr
        rw [hrec] at heq
        have heq2 := Option.some.inj heq
        injection heq2 with hent htf
        subst hent
        subst htf
        have hs1 : 1 ≤ sNext s := by unfold sNext; omega
        have hs5 : sNext s ≤ 5 := by unfold sNext; omega
        obtain ⟨hne, hhead, hmem, hchain, htf2⟩ :=
          ih (pollFor conn t s).2 (sNext s) rest tf2 hs1 hs5 hrec
        refine ⟨by simp, by simp, ?_, ?_, ?_⟩
        · intro e he
          rcases List.mem_cons.mp he with he2 | he2
          · subst he2
            refine ⟨h1, h5, ?_, rfl⟩
            dsimp only
            omega
          · exact hmem e he2
        · rw [List.chain'_cons']
          refine ⟨?_, hchain⟩
          intro y hy
          cases rest with
          | nil => exact absurd rfl hne
          | cons r rs =>
            simp only [List.head?_cons, Option.mem_def, Option.some.injEq] at hy
            subst hy
            simpa using hhead
        · simp only [List.map_cons, List.sum_cons]
          omega

/-- Claim C9: an outer-loop iteration that finds the link down issues a
connect request (first retry cycle, budget 1) and polls `wlan.isconnected()`
at 1-second intervals with a per-cycle attempt budget of at most 5, the
budget growing by one per failed cycle and wrapping after 5 (`sNext`), a
fresh connect request exactly on budget-1 cycles; a successful connection is
followed by the fixed 5-second settle delay before the first broker-session
attempt. -/
theorem c9_wifi_backoff (conn : ℕ → Bool) (fuel t : ℕ)
    (entries : List (ℕ × ℕ × Bool)) (tf : ℕ)
    (h : wifiLoop conn fuel t 1 = some (entries, tf)) :
    entries ≠ [] ∧
    (entries.headD (0, 0, false)).1 = 1 ∧
    (entries.headD (0, 0, false)).2.2 = true ∧
    (∀ e ∈ entries, 1 ≤ e.1 ∧ e.1 ≤ 5 ∧ e.2.1 ≤ e.1 ∧ e.2.2 = (e.1 == 1)) ∧
    List.Chain' (fun a b => b.1 = sNext a.1) entries ∧
    (∀ s, 1 ≤ s → s ≤ 4 → sNext s = s + 1) ∧
    sNext 5 = 1 ∧
    tf = t + (entries.map (fun e => e.2.1)).sum + 5 := by
  obtain ⟨hne, hhead, hmem, hchain, htf⟩ :=
    wifiLoop_spec conn fuel t 1 entries tf (by omega) (by omega) h
  refine ⟨hne, hhead, ?_, hmem, hchain, ?_, by norm_num [sNext], htf⟩
  · cases entries with
    | nil => exact absurd rfl hne
    | cons e es =>
      have hm := (hmem e (List.mem_cons_self e es)).2.2.2
      simp only [List.headD_cons] at hhead ⊢
      rw [hm, hhead]
      rfl
  · intro s hs1 hs4
    unfold sNext
    omega

/-- Witness for C9: with the link coming up 7 seconds in, the retry cycles
have budgets 1,2,3,4, the connect request is issued on the budget-1 cycle,
each cycle polls at most its budget, and the loop finishes at 7s plus the
5-second settle delay. -/
theorem c9_wifi_backoff_witness :
    wifiLoop (fun n => decide (7 ≤ n)) 10 0 1
      = some ([(1, 1, true), (2, 2, false), (3, 3, false), (4, 1, false)], 12) ∧
    (([(1, 1, true), (2, 2, false), (3, 3, false), (4, 1, false)] :
        List (ℕ × ℕ × Bool)) ≠ [] ∧
     (([(1, 1, true), (2, 2, false), (3, 3, false), (4, 1, false)] :
        List (ℕ × ℕ × Bool)).headD (0, 0, false)).1 = 1 ∧
     (([(1, 1, true), (2, 2, false), (3, 3, false), (4, 1, false)] :
        List (ℕ × ℕ × Bool)).headD (0, 0, false)).2.2 = true ∧
     (∀ e ∈ ([(1, 1, true), (2, 2, false), (3, 3, false), (4, 1, false)] :
        List (ℕ × ℕ × Bool)), 1 ≤ e.1 ∧ e.1 ≤ 5 ∧ e.2.1 ≤ e.1 ∧ e.2.2 = (e.1 == 1)) ∧
     List.Chain' (fun a b => b.1 = sNext a.1)
       ([(1, 1, true), (2, 2, false), (3, 3, false), (4, 1, false)] :
        List (ℕ × ℕ × Bool)) ∧
     (∀ s, 1 ≤ s → s ≤ 4 → sNext s = s + 1) ∧
     sNext 5 = 1 ∧
     12 = 0 + (([(1, 1, true), (2, 2, false), (3, 3, false), (4, 1, false)] :
        List (ℕ × ℕ × Bool)).map (fun e => e.2.1)).sum + 5) :=
  ⟨by decide,
   c9_wifi_backoff (fun n => decide (7 ≤ n)) 10 0
     [(1, 1, true), (2, 2, false), (3, 3, false), (4, 1, false)] 12 (by decide)⟩
